import Mathlib

/-!
Verification model of the `SnakemakeMagic` IPython magics class defined in
`prototype/notebooks/snakemake magic.ipynb`.

The class holds a lazily created handle to an external engine `Workflow`
object, a dictionary of temporary-file names, and exposes:

 * `get_workflow` — create the workflow handle on first use (backed by a
   root named temporary file that is handed to the engine and kept open),
 * `snakemake`    — line magic: parse command-line style arguments, validate
   the greediness value, then delegate to the engine's `check` and
   `execute`, returning the engine's success flag,
 * `sinclude`     — cell magic: write the cell to a temporary file, include
   it into the workflow with `overwrite_first_rule` set exactly when the
   rule table is empty, unlink the file and report the rule count,
 * `sconfig`      — cell magic: write the cell to a temporary file, load it
   with the engine's config loader, merge into the config dict and unlink.

The external engine (the `snakemake` library) is not part of the repository;
the model below captures the slice of its behaviour the notebook relies on
and documents: rules are stored in a name-keyed table, adding a rule whose
name is already present raises (the notebook's Limitations section records
"You can't replace a rule"), the first rule added becomes the default
target, and `include` restores the previous default target unless
`overwrite_first_rule` is set.  `execute` and `check` are abstracted by an
oracle recording the engine's outcome; the keyword arguments the adapter
passes to `execute` are recorded in an `ExecuteCall` so that theorems can
speak about what the adapter forwarded.

Cell text is represented by its parse: for `sinclude` the list of rule
names the engine's parser extracts from the cell, for `sconfig` the
key-value mapping the config loader produces (`none` for unparseable text).
Temporary files are natural-number paths drawn from a counter; the set of
paths currently existing on disk is the `live` list of the `FS` state.
-/

/-- External engine: the slice of the engine's `Workflow` object state the
adapter touches, with `id` standing for the Python object's identity. -/
structure Workflow where
  id : Nat
  rules : List String
  first_rule : Option String
  deriving Repr, DecidableEq

/-- External engine: `is_rule`, membership in the rule table. -/
def Workflow.is_rule (wf : Workflow) (name : String) : Bool :=
  wf.rules.contains name

/-- External engine: executing the parsed cell body adds its rules in
order.  A name already present raises (the rule table keeps its partial
additions, as Python exceptions leave prior mutations in place); otherwise
the rule is appended and becomes the default target when none is set. -/
def Workflow.addRules (wf : Workflow) (names : List String) :
    Workflow × Option String :=
  match names with
  | [] => (wf, none)
  | n :: rest =>
    if wf.is_rule n then
      (wf, some ("The name " ++ n ++ " is already used by another rule"))
    else
      Workflow.addRules
        { wf with
          rules := wf.rules ++ [n]
          first_rule :=
            match wf.first_rule with
            | none => some n
            | some r => some r }
        rest

/-- External engine: `Workflow.include`: run the parsed snakefile, then
restore the previous default target unless `overwrite_first_rule`; on an
exception the restore step is skipped. -/
def Workflow.includeCell (wf : Workflow) (cellRules : List String)
    (overwrite_first_rule : Bool) : Workflow × Option String :=
  let saved := wf.first_rule
  match Workflow.addRules wf cellRules with
  | (wf1, none) =>
    (if overwrite_first_rule then wf1 else { wf1 with first_rule := saved },
     none)
  | (wf1, some e) => (wf1, some e)

/-- Temporary-file system: a fresh-name counter and the list of temp paths
currently existing on disk. -/
structure FS where
  nextTemp : Nat
  live : List Nat
  deriving Repr, DecidableEq

/-- `tempfile.NamedTemporaryFile`: returns a fresh path and records it as
existing. -/
def FS.create (fs : FS) : Nat × FS :=
  (fs.nextTemp, { nextTemp := fs.nextTemp + 1, live := fs.live ++ [fs.nextTemp] })

/-- `os.unlink`: the path no longer exists. -/
def FS.unlink (fs : FS) (p : Nat) : FS :=
  { fs with live := fs.live.erase p }

/-- The session state of the `SnakemakeMagic` class: the lazily created
workflow handle, the `tempfiles` dict (`root` slot and `cells` list), the
module-global config dict, and the temp-file system. -/
structure MagicState where
  workflow : Option Workflow
  tempfiles_root : Option Nat
  tempfiles_cells : List Nat
  config : List (String × String)
  fs : FS
  deriving Repr, DecidableEq

/-- The state of a fresh session: `workflow = None`, an empty `cells` list
and no `root` slot in the tempfiles dict, empty config, no temp files. -/
def initialState : MagicState :=
  { workflow := none
    tempfiles_root := none
    tempfiles_cells := []
    config := []
    fs := { nextTemp := 0, live := [] } }

namespace SnakemakeMagic

/-- `get_workflow`: make sure there is a workflow object.  On first use a
root named temporary file is created (and kept — the engine needs the file
to exist) and a fresh `Workflow` is built on it; afterwards the stored
handle is returned unchanged. -/
def get_workflow (st : MagicState) : Workflow × MagicState :=
  match st.workflow with
  | some wf => (wf, st)
  | none =>
    let (path, fs1) := st.fs.create
    let wf : Workflow := { id := path, rules := [], first_rule := none }
    (wf, { st with workflow := some wf, tempfiles_root := some path, fs := fs1 })

end SnakemakeMagic

/-- Outcome of a Python call: a returned value or a raised exception. -/
inductive PyResult (α : Type) where
  | ok : α → PyResult α
  | exn : String → PyResult α
  deriving Repr, DecidableEq

/-- One call to the engine's `Workflow.include`, with the temp-file path
and the `overwrite_first_rule` keyword the adapter passed. -/
structure IncludeCall where
  path : Nat
  overwrite_first_rule : Bool
  deriving Repr, DecidableEq

/-- Result of the `sinclude` cell magic: final session state, the
`include` calls made, and the returned message or raised exception. -/
structure SincludeResult where
  state : MagicState
  includes : List IncludeCall
  ret : PyResult String
  deriving Repr, DecidableEq

namespace SnakemakeMagic

/-- `sinclude` cell magic: get the workflow, write the cell to a fresh
temporary file (recording its name in the tempfiles `cells` list),
include it with `overwrite_first_rule` set exactly when the rule
table is empty, unlink the file and report the new rule count.  If
`include` raises, the unlink and the return are skipped and the exception
propagates. -/
def sinclude (st : MagicState) (cellRules : List String) : SincludeResult :=
  let (workflow, st1) := get_workflow st
  let (path, fs2) := st1.fs.create
  let st2 := { st1 with fs := fs2, tempfiles_cells := st1.tempfiles_cells ++ [path] }
  let overwrite_first_rule := workflow.rules.length == 0
  match Workflow.includeCell workflow cellRules overwrite_first_rule with
  | (wf1, some e) =>
    { state := { st2 with workflow := some wf1 }
      includes := [{ path := path, overwrite_first_rule := overwrite_first_rule }]
      ret := PyResult.exn e }
  | (wf1, none) =>
    { state := { st2 with workflow := some wf1, fs := fs2.unlink path }
      includes := [{ path := path, overwrite_first_rule := overwrite_first_rule }]
      ret := PyResult.ok
        ("Workflow now has " ++ toString wf1.rules.length ++ " rules") }

end SnakemakeMagic

/-- `dict.update` on the module-global config: existing keys are
overwritten in place, new keys are appended. -/
def dictUpdate (d new : List (String × String)) : List (String × String) :=
  new.foldl
    (fun acc kv =>
      if acc.any (fun p => p.1 == kv.1) then
        acc.map (fun p => if p.1 == kv.1 then (p.1, kv.2) else p)
      else acc ++ [kv])
    d

/-- Result of the `sconfig` cell magic: final session state and the
returned unit or raised exception. -/
structure SconfigResult where
  state : MagicState
  ret : PyResult Unit
  deriving Repr, DecidableEq

namespace SnakemakeMagic

/-- `sconfig` cell magic: get the workflow, write the cell to a fresh
temporary file, load it with the engine's config loader and merge the
result into the config dict, then unlink the file.  If loading raises
(unparseable text, modelled by `none`), the unlink is skipped and the
exception propagates. -/
def sconfig (st : MagicState) (cellConfig : Option (List (String × String))) :
    SconfigResult :=
  let (_workflow, st1) := get_workflow st
  let (path, fs2) := st1.fs.create
  let st2 := { st1 with fs := fs2 }
  match cellConfig with
  | none => { state := st2, ret := PyResult.exn "could not load config file" }
  | some d =>
    { state := { st2 with config := dictUpdate st2.config d, fs := fs2.unlink path }
      ret := PyResult.ok () }

end SnakemakeMagic

/-- The parsed command-line arguments the `snakemake` line magic reads off
the engine's argument parser (the fields the adapter forwards or checks). -/
structure SnakemakeArgs where
  target : List String
  dryrun : Bool
  touch : Bool
  forceall : Bool
  forcerun : List String
  prioritize : Bool
  nolock : Bool
  unlock : Bool
  greediness : Option Rat
  deriving Repr, DecidableEq

/-- One call to the engine's `Workflow.execute`, recording the keyword
arguments of interest that the adapter passed. -/
structure ExecuteCall where
  targets : List String
  dryrun : Bool
  touch : Bool
  forceall : Bool
  forcerun : List String
  nolock : Bool
  unlock : Bool
  deriving Repr, DecidableEq

/-- Abstraction of the external engine's run: whether `workflow.check()`
returns normally and the success flag `workflow.execute(...)` returns. -/
structure EngineOracle where
  checkOk : Bool
  success : Bool
  deriving Repr, DecidableEq

/-- Result of the `snakemake` line magic: final session state, the
`execute` calls made, the messages printed via `logger.error`, and the
returned boolean or raised exception. -/
structure SnakemakeResult where
  state : MagicState
  calls : List ExecuteCall
  errors : List String
  ret : PyResult Bool
  deriving Repr, DecidableEq

namespace SnakemakeMagic

/-- `snakemake` line magic: raise if the workflow handle is still `None`;
reject a greediness value outside `[0, 1]` with a printed error and return
`False`; otherwise default greediness, disable locking (the HACK that
overwrites `lock` with `False`), run the engine's `check` and `execute`,
and return the engine's success flag. -/
def snakemake (st : MagicState) (args : SnakemakeArgs) (engine : EngineOracle) :
    SnakemakeResult :=
  match st.workflow with
  | none => { state := st, calls := [], errors := [], ret := PyResult.exn "Workflow has no data!" }
  | some _ =>
    let targets := args.target
    let forcerun := args.forcerun
    let prioritytargets := args.prioritize
    let lock := !args.nolock
    let greedinessBad : Bool :=
      match args.greediness with
      | none => false
      | some g => !(decide ((0 : Rat) ≤ g) && decide (g ≤ (1 : Rat)))
    if greedinessBad then
      { state := st
        calls := []
        errors := ["Error: greediness must be a float between 0 and 1."]
        ret := PyResult.ok false }
    else
      let _greediness : Rat :=
        match args.greediness with
        | none => if prioritytargets then (1 : Rat) / 2 else 1
        | some g => g
      let (_workflow, st1) := get_workflow st
      let lock := false
      if engine.checkOk then
        { state := st1
          calls := [{ targets := targets
                      dryrun := args.dryrun
                      touch := args.touch
                      forceall := args.forceall
                      forcerun := forcerun
                      nolock := !lock
                      unlock := args.unlock }]
          errors := []
          ret := PyResult.ok engine.success }
      else
        { state := st1, calls := [], errors := [], ret := PyResult.exn "workflow check raised" }

end SnakemakeMagic

/-- The rule table of the session's workflow (empty when the handle has
not been created yet, matching the table a freshly created handle gets). -/
def currentRules (st : MagicState) : List String :=
  (SnakemakeMagic.get_workflow st).1.rules

/-- The default target rule of the session's workflow. -/
def currentFirstRule (st : MagicState) : Option String :=
  (SnakemakeMagic.get_workflow st).1.first_rule

/-- The identity of the session's workflow object, if created. -/
def wfId (st : MagicState) : Option Nat :=
  st.workflow.map Workflow.id

/-- The path of the per-cell temporary file an invocation of `sinclude` or
`sconfig` on state `st` creates (the next fresh path after `get_workflow`
has run). -/
def cellTempPath (st : MagicState) : Nat :=
  (SnakemakeMagic.get_workflow st).2.fs.nextTemp

/-- Well-formedness of the temp-file system: the paths on disk are
pairwise distinct and below the fresh-name counter. -/
def FS.WF (fs : FS) : Prop :=
  fs.live.Nodup ∧ ∀ p ∈ fs.live, p < fs.nextTemp

instance (fs : FS) : Decidable (FS.WF fs) := by
  unfold FS.WF
  infer_instance

/-- Well-formedness of an engine workflow: the default target is the first
rule of the table. -/
def Workflow.WF (wf : Workflow) : Prop :=
  wf.first_rule = wf.rules.head?

instance (wf : Workflow) : Decidable (Workflow.WF wf) := by
  unfold Workflow.WF
  infer_instance

/-! Helper lemmas about the engine model. -/

theorem addRules_id (ns : List String) (wf : Workflow) :
    (Workflow.addRules wf ns).1.id = wf.id := by
  induction ns generalizing wf with
  | nil => rfl
  | cons n rest ih =>
    unfold Workflow.addRules
    by_cases h : wf.is_rule n = true
    · simp [h]
    · simp [h, ih]

theorem addRules_rules_extend (ns : List String) (wf : Workflow) :
    ∃ t, (Workflow.addRules wf ns).1.rules = wf.rules ++ t := by
  induction ns generalizing wf with
  | nil => exact ⟨[], by simp [Workflow.addRules]⟩
  | cons n rest ih =>
    unfold Workflow.addRules
    by_cases h : wf.is_rule n = true
    · exact ⟨[], by simp [h]⟩
    · simp only [h]
      obtain ⟨t, ht⟩ := ih
        { wf with
          rules := wf.rules ++ [n]
          first_rule :=
            match wf.first_rule with
            | none => some n
            | some r => some r }
      exact ⟨n :: t, by simp [ht]⟩

theorem addRules_ok_not_mem (ns : List String) (wf : Workflow)
    (h : (Workflow.addRules wf ns).2 = none) : ∀ x ∈ ns, x ∉ wf.rules := by
  induction ns generalizing wf with
  | nil => intro x hx; simp at hx
  | cons n rest ih =>
    intro x hx
    unfold Workflow.addRules at h
    by_cases hn : wf.is_rule n = true
    · simp [hn] at h
    · simp only [hn, if_neg, Bool.false_eq_true, not_false_eq_true, if_false] at h
      rcases List.mem_cons.mp hx with rfl | hx'
      · intro hmem
        exact hn (by simpa [Workflow.is_rule] using hmem)
      · intro hmem
        exact ih _ h x hx' (List.mem_append_left _ hmem)

theorem addRules_ok_rules (ns : List String) (wf : Workflow)
    (hnd : ns.Nodup) (hfresh : ∀ x ∈ ns, x ∉ wf.rules) :
    (Workflow.addRules wf ns).2 = none ∧
    (Workflow.addRules wf ns).1.rules = wf.rules ++ ns := by
  induction ns generalizing wf with
  | nil => simp [Workflow.addRules]
  | cons n rest ih =>
    have hn : ¬ wf.is_rule n = true := by
      simp [Workflow.is_rule]
      exact hfresh n (List.mem_cons_self n rest)
    unfold Workflow.addRules
    simp only [hn, if_neg, Bool.false_eq_true, not_false_eq_true, if_false]
    have hnd' := (List.nodup_cons.mp hnd).2
    have hnmem := (List.nodup_cons.mp hnd).1
    have hfresh' : ∀ x ∈ rest,
        x ∉ (wf.rules ++ [n]) := by
      intro x hx
      simp only [List.mem_append, List.mem_singleton]
      rintro (hmem | rfl)
      · exact hfresh x (List.mem_cons_of_mem _ hx) hmem
      · exact hnmem hx
    obtain ⟨h1, h2⟩ := ih
      { wf with
        rules := wf.rules ++ [n]
        first_rule :=
          match wf.first_rule with
          | none => some n
          | some r => some r } hnd' hfresh'
    exact ⟨h1, by simp [h2]⟩

theorem addRules_first_of_some (ns : List String) (wf : Workflow) (r : String)
    (h : wf.first_rule = some r) :
    (Workflow.addRules wf ns).1.first_rule = some r := by
  induction ns generalizing wf with
  | nil => simpa [Workflow.addRules] using h
  | cons n rest ih =>
    unfold Workflow.addRules
    by_cases hn : wf.is_rule n = true
    · simp [hn, h]
    · simp only [hn, if_neg, Bool.false_eq_true, not_false_eq_true, if_false]
      exact ih _ (by simp [h])

theorem erase_append_of_not_mem (l1 l2 : List Nat) (a : Nat) (h : a ∉ l1) :
    (l1 ++ l2).erase a = l1 ++ l2.erase a := by
  induction l1 with
  | nil => simp
  | cons b l ih =>
    have hb : ¬ b = a := by
      rintro rfl
      exact h (List.mem_cons_self _ _)
    simp only [List.cons_append, List.erase_cons]
    simp only [beq_iff_eq, hb, if_false]
    rw [ih (fun hx => h (List.mem_cons_of_mem _ hx))]

theorem get_workflow_of_some (st : MagicState) (wf : Workflow)
    (h : st.workflow = some wf) :
    SnakemakeMagic.get_workflow st = (wf, st) := by
  simp [SnakemakeMagic.get_workflow, h]

theorem get_workflow_fs_WF (st : MagicState) (h : FS.WF st.fs) :
    FS.WF (SnakemakeMagic.get_workflow st).2.fs ∧
    st.fs.nextTemp ≤ (SnakemakeMagic.get_workflow st).2.fs.nextTemp := by
  cases hw : st.workflow with
  | some wf => simp [SnakemakeMagic.get_workflow, hw, h]
  | none =>
    obtain ⟨hnd, hlt⟩ := h
    constructor
    · constructor
      · simp only [SnakemakeMagic.get_workflow, hw, FS.create]
        rw [List.nodup_append]
        refine ⟨hnd, List.nodup_singleton _, ?_⟩
        intro a ha hb
        exact Nat.ne_of_lt (hlt a ha) (List.mem_singleton.mp hb)
      · intro p hp
        simp only [SnakemakeMagic.get_workflow, hw, FS.create] at hp ⊢
        rcases List.mem_append.mp hp with hmem | hmem
        · exact Nat.lt_succ_of_lt (hlt p hmem)
        · simp at hmem; omega
    · simp [SnakemakeMagic.get_workflow, hw, FS.create]

theorem includeCell_id (wf : Workflow) (cell : List String) (b : Bool) :
    (Workflow.includeCell wf cell b).1.id = wf.id := by
  unfold Workflow.includeCell
  rcases haa : Workflow.addRules wf cell with ⟨wf1, e⟩
  have hid : wf1.id = wf.id := by
    have h2 := addRules_id cell wf
    rw [haa] at h2
    exact h2
  cases e with
  | none => cases b <;> simp [hid]
  | some err => simp [hid]

theorem includeCell_first_of_false (wf : Workflow) (cell : List String)
    (hwf : Workflow.WF wf) (hne : wf.rules ≠ []) :
    (Workflow.includeCell wf cell false).1.first_rule = wf.first_rule := by
  unfold Workflow.includeCell
  rcases haa : Workflow.addRules wf cell with ⟨wf1, e⟩
  cases e with
  | none => simp
  | some err =>
    cases hr : wf.rules with
    | nil => exact absurd hr hne
    | cons r t =>
      have hfr : wf.first_rule = some r := by rw [hwf, hr]; rfl
      have h2 := addRules_first_of_some cell wf r hfr
      rw [haa] at h2
      dsimp only at h2
      simp [h2, hfr]

/-! Concrete session states and arguments used by witnesses and
counterexamples: a session holding the single rule of the notebook's first
demo cell, a session that has only loaded configuration, and argument
records for the line magic. -/

def noArgs : SnakemakeArgs :=
  { target := [], dryrun := false, touch := false, forceall := false,
    forcerun := [], prioritize := false, nolock := false, unlock := false,
    greediness := none }

def engineOk : EngineOracle := { checkOk := true, success := true }

def engineFail : EngineOracle := { checkOk := true, success := false }

def stOne : MagicState := (SnakemakeMagic.sinclude initialState ["test_1"]).state

def wfOne : Workflow := { id := 0, rules := ["test_1"], first_rule := some "test_1" }

def stCfg : MagicState := (SnakemakeMagic.sconfig initialState (some [("foo", "bar")])).state

def argsForce : SnakemakeArgs := { noArgs with forcerun := ["word_count"] }

/-- C1, counterexample: including the cell `rule test_1:` twice does not
replace the rule — the second inclusion raises the engine's duplicate-name
exception and the rule table is unchanged, refuting the claim that a later
rule definition with the same name replaces the earlier one. -/
theorem C1_counterexample :
    (SnakemakeMagic.sinclude stOne ["test_1"]).ret =
      PyResult.exn "The name test_1 is already used by another rule" ∧
    currentRules (SnakemakeMagic.sinclude stOne ["test_1"]).state = ["test_1"] := by
  constructor <;> rfl

/-- C1, amended: for every workflow state and every included cell, a rule
definition whose name equals that of a previously defined rule is rejected
— the inclusion raises and every previously defined rule is kept (the
notebook's Limitations section records that a rule cannot be replaced). -/
theorem C1_same_name_rule_rejected_not_replaced (st : MagicState)
    (wf : Workflow) (h : st.workflow = some wf)
    (n : String) (cell : List String) (hn : n ∈ cell) (hr : n ∈ wf.rules) :
    (∃ e, (SnakemakeMagic.sinclude st cell).ret = PyResult.exn e) ∧
    (∃ t, currentRules (SnakemakeMagic.sinclude st cell).state = wf.rules ++ t) := by
  unfold SnakemakeMagic.sinclude
  rw [get_workflow_of_some st wf h]
  dsimp only
  unfold Workflow.includeCell
  rcases haa : Workflow.addRules wf cell with ⟨wf1, e⟩
  have hext : ∃ t, wf1.rules = wf.rules ++ t := by
    obtain ⟨t, ht⟩ := addRules_rules_extend cell wf
    rw [haa] at ht
    exact ⟨t, ht⟩
  cases e with
  | none =>
    exact absurd hr (addRules_ok_not_mem cell wf (by rw [haa]) n hn)
  | some err =>
    dsimp only
    refine ⟨⟨err, rfl⟩, ?_⟩
    obtain ⟨t, ht⟩ := hext
    exact ⟨t, by simp [currentRules, SnakemakeMagic.get_workflow, ht]⟩

/-- C1, witness: the amended theorem applied to the session holding the
single rule `test_1` and a cell redefining `test_1`. -/
theorem C1_witness :
    stOne.workflow = some wfOne ∧
    ((∃ e, (SnakemakeMagic.sinclude stOne ["test_1"]).ret = PyResult.exn e) ∧
      (∃ t, currentRules (SnakemakeMagic.sinclude stOne ["test_1"]).state =
        wfOne.rules ++ t)) :=
  ⟨rfl, C1_same_name_rule_rejected_not_replaced stOne wfOne rfl "test_1" ["test_1"]
    (by decide) (by decide)⟩

/-- C2, counterexample: a session that has only loaded configuration has no
rules defined, yet invoking the execution operation does not raise — the
engine's execute call is made and its success flag is returned, refuting
the claim that every no-rule state raises. -/
theorem C2_counterexample :
    currentRules stCfg = [] ∧
    (SnakemakeMagic.snakemake stCfg noArgs engineOk).ret = PyResult.ok true ∧
    (SnakemakeMagic.snakemake stCfg noArgs engineOk).calls.length = 1 :=
  ⟨rfl, rfl, rfl⟩

/-- C2, amended: the execution operation raises the unrecoverable
`Workflow has no data!` error exactly when the workflow handle has not been
initialized (`self.workflow is None`), not whenever no rule has been
defined. -/
theorem C2_raises_iff_workflow_uninitialized (st : MagicState)
    (args : SnakemakeArgs) (engine : EngineOracle) :
    (SnakemakeMagic.snakemake st args engine).ret =
      PyResult.exn "Workflow has no data!" ↔
    st.workflow = none := by
  unfold SnakemakeMagic.snakemake
  cases st.workflow with
  | none => simp
  | some wf =>
    dsimp only
    constructor
    · intro h
      revert h
      split
      · intro h; simp at h
      · split
        · intro h; simp at h
        · intro h; simp at h
    · intro h; exact Option.noConfusion h

/-- C3, counterexample: a cell defining the two rules `test_1` and
`word_count` against a session already holding `test_1` raises instead of
returning the count message, and the rule count increases by zero rather
than by two, refuting the claim for every invocation. -/
theorem C3_counterexample :
    (SnakemakeMagic.sinclude stOne ["test_1", "word_count"]).ret =
      PyResult.exn "The name test_1 is already used by another rule" ∧
    (currentRules (SnakemakeMagic.sinclude stOne ["test_1", "word_count"]).state).length
      = 1 := by
  constructor <;> rfl

/-- C3, amended: for every invocation of the rule-inclusion operation on a
cell defining k rules with pairwise distinct names, none of which is
already defined, the workflow's rule count increases by k and the
operation returns the message reporting the resulting total rule count. -/
theorem C3_fresh_rules_increase_count (st : MagicState) (cell : List String)
    (hnd : cell.Nodup) (hfresh : ∀ x ∈ cell, x ∉ currentRules st) :
    (SnakemakeMagic.sinclude st cell).ret =
      PyResult.ok ("Workflow now has " ++
        toString ((currentRules st).length + cell.length) ++ " rules") ∧
    (currentRules (SnakemakeMagic.sinclude st cell).state).length =
      (currentRules st).length + cell.length := by
  rcases hgw : SnakemakeMagic.get_workflow st with ⟨wf, st1⟩
  have hcur : currentRules st = wf.rules := by rw [currentRules, hgw]
  rw [hcur] at hfresh
  rw [hcur]
  unfold SnakemakeMagic.sinclude
  rw [hgw]
  dsimp only
  unfold Workflow.includeCell
  obtain ⟨hok, hrules⟩ := addRules_ok_rules cell wf hnd hfresh
  rcases haa : Workflow.addRules wf cell with ⟨wf1, e⟩
  rw [haa] at hok hrules
  dsimp only at hok hrules
  subst hok
  dsimp only
  constructor
  · split <;> simp [hrules]
  · split <;> simp [currentRules, SnakemakeMagic.get_workflow, hrules]

/-- C3, witness: the amended theorem applied to a fresh session and a cell
defining the two distinct new rules `date_rule` and `word_count`. -/
theorem C3_witness :
    (["date_rule", "word_count"] : List String).Nodup ∧
    (∀ x ∈ (["date_rule", "word_count"] : List String), x ∉ currentRules initialState) ∧
    ((SnakemakeMagic.sinclude initialState ["date_rule", "word_count"]).ret =
      PyResult.ok ("Workflow now has " ++
        toString ((currentRules initialState).length +
          (["date_rule", "word_count"] : List String).length) ++ " rules") ∧
    (currentRules
        (SnakemakeMagic.sinclude initialState ["date_rule", "word_count"]).state).length =
      (currentRules initialState).length +
        (["date_rule", "word_count"] : List String).length) :=
  ⟨by decide, by decide,
    C3_fresh_rules_increase_count initialState ["date_rule", "word_count"]
      (by decide) (by decide)⟩

/-- C4: for every invocation of the execution operation on a session with
an initialized workflow handle, a greediness argument that is absent or
within the closed interval from 0 to 1, and an engine whose check returns
normally, the operation's return value is exactly the success flag the
engine's execute call returns, and exactly one execute call is made. -/
theorem C4_returns_engine_success (st : MagicState) (args : SnakemakeArgs)
    (engine : EngineOracle) (wf : Workflow) (h : st.workflow = some wf)
    (hg : ∀ g, args.greediness = some g → 0 ≤ g ∧ g ≤ 1)
    (hc : engine.checkOk = true) :
    (SnakemakeMagic.snakemake st args engine).ret = PyResult.ok engine.success ∧
    (SnakemakeMagic.snakemake st args engine).calls.length = 1 := by
  unfold SnakemakeMagic.snakemake
  rw [h]
  dsimp only
  cases hga : args.greediness with
  | none => simp [hga, hc]
  | some g =>
    obtain ⟨h1, h2⟩ := hg g hga
    simp [hga, h1, h2, hc]

/-- C4, witness: the theorem applied to the one-rule session with an engine
whose execute call reports failure — the operation returns that failure
flag unchanged. -/
theorem C4_witness :
    stOne.workflow = some wfOne ∧
    ((SnakemakeMagic.snakemake stOne noArgs engineFail).ret =
        PyResult.ok engineFail.success ∧
      (SnakemakeMagic.snakemake stOne noArgs engineFail).calls.length = 1) :=
  ⟨rfl, C4_returns_engine_success stOne noArgs engineFail wfOne rfl
    (fun _ hg => Option.noConfusion hg) rfl⟩

/-- C5, counterexample: on a fresh session (workflow handle still `None`)
with greediness 2, the operation raises the `Workflow has no data!` error
instead of printing the greediness message and returning false, refuting
the claim for every invocation. -/
theorem C5_counterexample :
    (SnakemakeMagic.snakemake initialState { noArgs with greediness := some 2 }
        engineOk).ret =
      PyResult.exn "Workflow has no data!" := rfl

/-- C5, amended: for every invocation whose workflow handle is initialized
and whose explicit greediness argument lies outside the closed interval
from 0 to 1, the operation prints the greediness error message, returns
false, makes no execute call, and leaves the session state unchanged. -/
theorem C5_invalid_greediness_rejected (st : MagicState) (args : SnakemakeArgs)
    (engine : EngineOracle) (wf : Workflow) (g : Rat)
    (h : st.workflow = some wf) (hg : args.greediness = some g)
    (hbad : ¬ (0 ≤ g ∧ g ≤ 1)) :
    (SnakemakeMagic.snakemake st args engine).ret = PyResult.ok false ∧
    (SnakemakeMagic.snakemake st args engine).calls = [] ∧
    (SnakemakeMagic.snakemake st args engine).errors =
      ["Error: greediness must be a float between 0 and 1."] ∧
    (SnakemakeMagic.snakemake st args engine).state = st := by
  unfold SnakemakeMagic.snakemake
  rw [h]
  dsimp only
  rcases lt_or_le g 0 with hlt | hge
  · simp [hg, not_le.mpr hlt]
  · have hgt : ¬ g ≤ 1 := fun hle => hbad ⟨hge, hle⟩
    simp [hg, hgt]

/-- C5, witness: the amended theorem applied to the one-rule session with
greediness 2. -/
theorem C5_witness :
    stOne.workflow = some wfOne ∧
    ({ noArgs with greediness := some 2 } : SnakemakeArgs).greediness = some 2 ∧
    ¬ ((0 : Rat) ≤ 2 ∧ (2 : Rat) ≤ 1) ∧
    ((SnakemakeMagic.snakemake stOne { noArgs with greediness := some 2 }
        engineOk).ret = PyResult.ok false ∧
      (SnakemakeMagic.snakemake stOne { noArgs with greediness := some 2 }
        engineOk).calls = [] ∧
      (SnakemakeMagic.snakemake stOne { noArgs with greediness := some 2 }
        engineOk).errors =
        ["Error: greediness must be a float between 0 and 1."] ∧
      (SnakemakeMagic.snakemake stOne { noArgs with greediness := some 2 }
        engineOk).state = stOne) :=
  ⟨rfl, rfl, by decide,
    C5_invalid_greediness_rejected stOne _ engineOk wfOne 2 rfl rfl (by decide)⟩

/-- C6, counterexample: the workflow-creation step creates the root named
temporary file and that file still exists when the step completes (it is
kept for the engine for the rest of the session), refuting the claim that
every temporary file created by an operation is deleted before it
returns. -/
theorem C6_counterexample :
    (SnakemakeMagic.get_workflow initialState).2.tempfiles_root = some 0 ∧
    0 ∈ (SnakemakeMagic.get_workflow initialState).2.fs.live := by
  constructor
  · rfl
  · decide

/-- C6, amended: the per-cell temporary file created by an invocation of
the rule-inclusion or configuration-loading operation is deleted before
that invocation returns on its non-raising path; the root temporary file
created by the workflow-creation step persists for the session. -/
theorem C6_cell_tempfiles_deleted (st : MagicState) (hfs : FS.WF st.fs)
    (cell : List String) (cfg : List (String × String)) :
    ((∃ s, (SnakemakeMagic.sinclude st cell).ret = PyResult.ok s) →
      cellTempPath st ∉ (SnakemakeMagic.sinclude st cell).state.fs.live) ∧
    cellTempPath st ∉ (SnakemakeMagic.sconfig st (some cfg)).state.fs.live := by
  rcases hgw : SnakemakeMagic.get_workflow st with ⟨wf, st1⟩
  have hwf1 : FS.WF st1.fs := by
    have hh := (get_workflow_fs_WF st hfs).1
    rw [hgw] at hh
    exact hh
  have hpath : cellTempPath st = st1.fs.nextTemp := by rw [cellTempPath, hgw]
  rw [hpath]
  obtain ⟨hnd1, hlt1⟩ := hwf1
  have hnotmem : st1.fs.nextTemp ∉ st1.fs.live := fun hmem =>
    (Nat.lt_irrefl _) (hlt1 _ hmem)
  have herase :
      (st1.fs.live ++ [st1.fs.nextTemp]).erase st1.fs.nextTemp = st1.fs.live := by
    rw [erase_append_of_not_mem _ _ _ hnotmem]
    simp
  constructor
  · intro hok
    unfold SnakemakeMagic.sinclude at hok ⊢
    rw [hgw] at hok ⊢
    dsimp only at hok ⊢
    rcases hin : Workflow.includeCell wf cell (wf.rules.length == 0) with ⟨wf1, e⟩
    cases e with
    | some err =>
      rw [hin] at hok
      obtain ⟨s, hs⟩ := hok
      dsimp only at hs
      exact PyResult.noConfusion hs
    | none =>
      dsimp only [FS.create, FS.unlink]
      rw [herase]
      exact hnotmem
  · unfold SnakemakeMagic.sconfig
    rw [hgw]
    dsimp only [FS.create, FS.unlink]
    rw [herase]
    exact hnotmem

/-- C6, witness: the amended theorem applied to a fresh session, the cell
defining `test_1`, and the configuration pair `foo, bar`. -/
theorem C6_witness :
    FS.WF initialState.fs ∧
    (((∃ s, (SnakemakeMagic.sinclude initialState ["test_1"]).ret = PyResult.ok s) →
        cellTempPath initialState ∉
          (SnakemakeMagic.sinclude initialState ["test_1"]).state.fs.live) ∧
      cellTempPath initialState ∉
        (SnakemakeMagic.sconfig initialState (some [("foo", "bar")])).state.fs.live) :=
  ⟨by decide, C6_cell_tempfiles_deleted initialState (by decide) ["test_1"]
    [("foo", "bar")]⟩

/-- C7, counterexample: after an attempted same-name redefinition of
`test_1` (which the engine rejects), the next execution with an empty
forcerun argument passes an empty forcerun to the engine — no list of
replaced rule names is kept or forwarded, refuting the claim. -/
theorem C7_counterexample :
    (SnakemakeMagic.sinclude stOne ["test_1"]).ret =
      PyResult.exn "The name test_1 is already used by another rule" ∧
    (SnakemakeMagic.snakemake (SnakemakeMagic.sinclude stOne ["test_1"]).state
        noArgs engineOk).calls =
      [{ targets := [], dryrun := false, touch := false, forceall := false,
         forcerun := [], nolock := true, unlock := false }] := by
  constructor <;> rfl

/-- C7, amended: the adapter keeps no record of replaced rules (tracking
updated rules for force-run is only a TODO comment in the source); the
rules passed to the engine's execute call to force re-run are exactly
those of the user's forcerun argument, for every session state. -/
theorem C7_forcerun_comes_from_args (st : MagicState) (args : SnakemakeArgs)
    (engine : EngineOracle) :
    ∀ c ∈ (SnakemakeMagic.snakemake st args engine).calls,
      c.forcerun = args.forcerun := by
  unfold SnakemakeMagic.snakemake
  cases st.workflow with
  | none => intro c hc; simp at hc
  | some wf =>
    dsimp only
    split
    · intro c hc; simp at hc
    · split
      · intro c hc
        simp only [List.mem_singleton] at hc
        subst hc
        rfl
      · intro c hc; simp at hc

/-- C7, witness: the amended theorem applied to the one-rule session with
a forcerun argument naming `word_count`. -/
theorem C7_witness :
    ({ targets := [], dryrun := false, touch := false, forceall := false,
       forcerun := ["word_count"], nolock := true, unlock := false } : ExecuteCall) ∈
      (SnakemakeMagic.snakemake stOne argsForce engineOk).calls ∧
    ({ targets := [], dryrun := false, touch := false, forceall := false,
       forcerun := ["word_count"], nolock := true, unlock := false } : ExecuteCall).forcerun =
      argsForce.forcerun :=
  ⟨by decide, C7_forcerun_comes_from_args stOne argsForce engineOk _ (by decide)⟩

/-- C8: the adapter holds a single lazily-initialized workflow handle — a
fresh session has none, the first call that needs it creates and stores
one, calling `get_workflow` on an initialized session returns the stored
handle and leaves the state unchanged, and every operation preserves the
identity of the stored workflow object (none replaces or discards it). -/
theorem C8_single_lazy_workflow_handle (st : MagicState) (wf : Workflow)
    (h : st.workflow = some wf) (cell : List String)
    (cfg : Option (List (String × String))) (args : SnakemakeArgs)
    (engine : EngineOracle) :
    initialState.workflow = none ∧
    (SnakemakeMagic.get_workflow initialState).2.workflow =
      some (SnakemakeMagic.get_workflow initialState).1 ∧
    SnakemakeMagic.get_workflow st = (wf, st) ∧
    wfId (SnakemakeMagic.sinclude st cell).state = some wf.id ∧
    wfId (SnakemakeMagic.sconfig st cfg).state = some wf.id ∧
    wfId (SnakemakeMagic.snakemake st args engine).state = some wf.id := by
  refine ⟨rfl, rfl, get_workflow_of_some st wf h, ?_, ?_, ?_⟩
  · unfold SnakemakeMagic.sinclude
    rw [get_workflow_of_some st wf h]
    dsimp only
    rcases hin : Workflow.includeCell wf cell (wf.rules.length == 0) with ⟨wf1, e⟩
    have hid : wf1.id = wf.id := by
      have hh := includeCell_id wf cell (wf.rules.length == 0)
      rw [hin] at hh
      exact hh
    cases e <;> simp [wfId, hid]
  · unfold SnakemakeMagic.sconfig
    rw [get_workflow_of_some st wf h]
    dsimp only
    cases cfg <;> simp [wfId, h]
  · unfold SnakemakeMagic.snakemake
    rw [h]
    dsimp only
    split
    · simp [wfId, h]
    · rw [get_workflow_of_some st wf h]
      split <;> simp [wfId, h]

/-- C8, witness: the theorem applied to the one-rule session, a cell
defining `word_count`, a configuration cell, and an execution. -/
theorem C8_witness :
    stOne.workflow = some wfOne ∧
    (initialState.workflow = none ∧
     (SnakemakeMagic.get_workflow initialState).2.workflow =
       some (SnakemakeMagic.get_workflow initialState).1 ∧
     SnakemakeMagic.get_workflow stOne = (wfOne, stOne) ∧
     wfId (SnakemakeMagic.sinclude stOne ["word_count"]).state = some wfOne.id ∧
     wfId (SnakemakeMagic.sconfig stOne (some [("foo", "bar")])).state = some wfOne.id ∧
     wfId (SnakemakeMagic.snakemake stOne noArgs engineOk).state = some wfOne.id) :=
  ⟨rfl, C8_single_lazy_workflow_handle stOne wfOne rfl ["word_count"]
    (some [("foo", "bar")]) noArgs engineOk⟩

/-- C9: every execute call the execution operation makes to the external
engine has directory locking disabled — the nolock keyword is true for
every call, for every session state, argument record and engine, because
the adapter overwrites its lock variable with false before executing. -/
theorem C9_execute_always_nolock (st : MagicState) (args : SnakemakeArgs)
    (engine : EngineOracle) :
    ((SnakemakeMagic.snakemake st args engine).calls.all fun c => c.nolock) = true := by
  unfold SnakemakeMagic.snakemake
  cases st.workflow with
  | none => rfl
  | some wf =>
    dsimp only
    split
    · rfl
    · split
      · rfl
      · rfl

/-- C10: the rule-inclusion operation passes the overwrite-first-rule flag
to the engine's include call as true exactly when the workflow's rule
table is empty before the inclusion, and whenever the table is non-empty
the default target rule after the inclusion equals the one before it (for
workflows satisfying the engine invariant that the default target is the
first rule of the table). -/
theorem C10_overwrite_first_rule_iff_empty (st : MagicState) (cell : List String)
    (hwf : Workflow.WF (SnakemakeMagic.get_workflow st).1) :
    (∀ ic ∈ (SnakemakeMagic.sinclude st cell).includes,
      ic.overwrite_first_rule = decide (currentRules st = [])) ∧
    (currentRules st ≠ [] →
      currentFirstRule (SnakemakeMagic.sinclude st cell).state = currentFirstRule st) := by
  rcases hgw : SnakemakeMagic.get_workflow st with ⟨wf, st1⟩
  rw [hgw] at hwf
  have hcur : currentRules st = wf.rules := by rw [currentRules, hgw]
  have hfst : currentFirstRule st = wf.first_rule := by rw [currentFirstRule, hgw]
  rw [hcur, hfst]
  unfold SnakemakeMagic.sinclude
  rw [hgw]
  dsimp only
  constructor
  · intro ic hic
    rcases hin : Workflow.includeCell wf cell (wf.rules.length == 0) with ⟨wf1, e⟩
    have hflag : (wf.rules.length == 0) = decide (wf.rules = []) := by
      cases wf.rules <;> simp
    cases e with
    | none =>
      rw [hin] at hic
      dsimp only at hic
      simp only [List.mem_singleton] at hic
      subst hic
      exact hflag
    | some err =>
      rw [hin] at hic
      dsimp only at hic
      simp only [List.mem_singleton] at hic
      subst hic
      exact hflag
  · intro hne
    have hb : (wf.rules.length == 0) = false := by
      cases hr : wf.rules with
      | nil => exact absurd hr hne
      | cons a t => simp
    rw [hb]
    rcases hin : Workflow.includeCell wf cell false with ⟨wf1, e⟩
    have hfirst : wf1.first_rule = wf.first_rule := by
      have hh := includeCell_first_of_false wf cell hwf hne
      rw [hin] at hh
      exact hh
    cases e <;> simp [currentFirstRule, SnakemakeMagic.get_workflow, hfirst]

/-- C10, witness: the theorem applied to the one-rule session and a cell
defining `word_count` — the flag is false and the default target stays
`test_1`. -/
theorem C10_witness :
    Workflow.WF (SnakemakeMagic.get_workflow stOne).1 ∧
    ((∀ ic ∈ (SnakemakeMagic.sinclude stOne ["word_count"]).includes,
        ic.overwrite_first_rule = decide (currentRules stOne = [])) ∧
      (currentRules stOne ≠ [] →
        currentFirstRule (SnakemakeMagic.sinclude stOne ["word_count"]).state =
          currentFirstRule stOne)) :=
  ⟨by decide, C10_overwrite_first_rule_iff_empty stOne ["word_count"] (by decide)⟩
